import Mathlib

/-!
Verification development for the linux_process_metrics monitor
(scalyr_agent/builtin_monitors/linux_process_metrics.py).

The Python module is embedded shallowly:

- Python dicts become association lists (`alGet` / `alSet`) that preserve
  the semantics needed here: lookup, in-place update of an existing key,
  and append of a new key.  Iteration order of a dict is modelled by the
  order of the association list.
- `ProcessMonitor.__metrics_history` becomes `Hist`,
  `ProcessMonitor.__running_total_metrics` becomes `Totals`.
- `_record_metrics`, `_reset_absolute_metrics`, `_calculate_running_total`,
  `print_metrics` and the per-cycle body of `gather_sample` become
  `recordMetrics`, `resetAbsoluteMetrics`, `calcRunningTotal`,
  `printMetrics` and `runCycle`.  The readers (`BaseReader`), the process
  selection (`__select_processes`) and the liveness probe (`__is_running`)
  are embedded further below.
- Machine effects that are inputs to the code (file open outcomes, the
  output of the external ps invocation, sampled values) are passed as
  explicit arguments.
-/

/-- A metric identity: metric name plus optional subtype, e.g.
(app.cpu, user).  Mirrors the `Metric` namedtuple and the
(metric name, metric type) tuple keys used throughout the Python code. -/
abbrev MetricKey := String × Option String

/-- One cycle of collected values for one process: the `collector` dict. -/
abbrev Sample := List (MetricKey × Int)

/-- The per-process slice of `__metrics_history`: metric key to the list of
recorded values (at most the last two are kept by `_record_metrics`). -/
abbrev PidMetrics := List (MetricKey × List Int)

/-- `__metrics_history`: process id to its per-metric history. -/
abbrev Hist := List (Nat × PidMetrics)

/-- `__running_total_metrics`: metric key to accumulated value. -/
abbrev Totals := List (MetricKey × Int)

/-- Python dict lookup `d.get(k)`. -/
def alGet {α β : Type} [DecidableEq α] : List (α × β) → α → Option β
  | [], _ => none
  | e :: rest, k => if e.1 = k then some e.2 else alGet rest k

/-- Python dict assignment `d[k] = v`: replaces the binding in place when
the key is present, appends a new binding otherwise. -/
def alSet {α β : Type} [DecidableEq α] : List (α × β) → α → β → List (α × β)
  | [], k, v => [(k, v)]
  | e :: rest, k, v => if e.1 = k then (k, v) :: rest else e :: alSet rest k v

/-- Python slice `l[-2:]`. -/
def lastTwo (l : List Int) : List Int := l.drop (l.length - 2)

/-- Python `l[-1]` (history value lists are never empty in reachable
states, so the default is never observed there). -/
def pyLastD (l : List Int) : Int := (l.getLast?).getD 0

/-- Python `l[-2]`, used only under a length guard in the source. -/
def pySecondLastD (l : List Int) : Int := (lastTwo l).headD 0

/-- `_record_metrics` body for one (metric key, value) pair: ensure the pid
entry exists (`__metrics_history` is a defaultdict), reset a falsy history
list to `[]`, append the value, and truncate to the last two entries. -/
def recordOne (hist : Hist) (pid : Nat) (key : MetricKey) (v : Int) : Hist :=
  let pm := (alGet hist pid).getD []
  let old := (alGet pm key).getD []
  alSet hist pid (alSet pm key (lastTwo (old ++ [v])))

/-- `ProcessMonitor._record_metrics`: fold `recordOne` over the collected
metrics of one process, in iteration order. -/
def recordMetrics (hist : Hist) (pid : Nat) (metrics : Sample) : Hist :=
  match metrics with
  | [] => hist
  | kv :: rest => recordMetrics (recordOne hist pid kv.1 kv.2) pid rest

/-- The record pass of `gather_sample`: record each selected pid in turn. -/
def recordAll (input : List (Nat × Sample)) (hist : Hist) : Hist :=
  match input with
  | [] => hist
  | e :: rest => recordAll rest (recordMetrics hist e.1 e.2)

/-- Inner loop of `_reset_absolute_metrics` over one pid: zero the running
total of every metric whose name is not app.cpu (the source tests
membership in the one-element tuple (app.cpu,)). -/
def resetPm (pm : PidMetrics) (t : Totals) : Totals :=
  match pm with
  | [] => t
  | kv :: rest => resetPm rest (if kv.1.1 = "app.cpu" then t else alSet t kv.1 0)

/-- `ProcessMonitor._reset_absolute_metrics`: iterate all history entries. -/
def resetAbsoluteMetrics (hist : Hist) (total : Totals) : Totals :=
  match hist with
  | [] => total
  | e :: rest => resetAbsoluteMetrics rest (resetPm e.2 total)

/-- The `if not self.__running_total_metrics.get(key)` normalisation at the
top of the `_calculate_running_total` loop body: a missing or zero entry is
(re)assigned zero. -/
def ensureKey (t : Totals) (key : MetricKey) : Totals :=
  if (alGet t key).getD 0 = 0 then alSet t key 0 else t

/-- One iteration of the `_calculate_running_total` loop, for history entry
(pid, key, vals) against the selected pid set:

- metrics named app.cpu with the pid selected add the last delta when two
  values are recorded and reset the total to zero otherwise;
- metrics named app.cpu with the pid not selected subtract the last delta
  when two values are recorded;
- every other metric adds its last recorded value. -/
def calcEntry (running : List Nat) (pid : Nat) (key : MetricKey) (vals : List Int)
    (t : Totals) : Totals :=
  if key.1 = "app.cpu" then
    if pid ∈ running then
      if vals.length < 2 then
        alSet (ensureKey t key) key 0
      else
        alSet (ensureKey t key) key
          ((alGet (ensureKey t key) key).getD 0 + (pyLastD vals - pySecondLastD vals))
    else
      if 2 ≤ vals.length then
        alSet (ensureKey t key) key
          ((alGet (ensureKey t key) key).getD 0 - (pyLastD vals - pySecondLastD vals))
      else ensureKey t key
  else
    alSet (ensureKey t key) key ((alGet (ensureKey t key) key).getD 0 + pyLastD vals)

/-- Inner loop of `_calculate_running_total` over one pid. -/
def calcPm (running : List Nat) (pid : Nat) (pm : PidMetrics) (t : Totals) : Totals :=
  match pm with
  | [] => t
  | kv :: rest => calcPm running pid rest (calcEntry running pid kv.1 kv.2 t)

/-- The accumulation phase of `_calculate_running_total`. -/
def calcAll (running : List Nat) (hist : Hist) (t : Totals) : Totals :=
  match hist with
  | [] => t
  | e :: rest => calcAll running rest (calcPm running e.1 e.2 t)

/-- `ProcessMonitor._calculate_running_total`: accumulate over all history,
then purge the history entries of pids that are no longer running. -/
def calcRunningTotal (running : List Nat) (hist : Hist) (total : Totals) :
    Hist × Totals :=
  (hist.filter (fun e => decide (e.1 ∈ running)), calcAll running hist total)

/-- One emitted value of `print_metrics`: metric name, value and the extra
fields handed to `emit_value`. -/
structure Emit where
  metricName : String
  value : Int
  extra : List (String × String)
deriving DecidableEq

/-- The extra-fields construction of `print_metrics`: always the monitor id
as app, plus the subtype as type when it is truthy. -/
def emitOf (monitorId : String) (kv : MetricKey × Int) : Emit :=
  { metricName := kv.1.1
    value := kv.2
    extra :=
      match kv.1.2 with
      | some t => if t.isEmpty then [("app", monitorId)] else [("app", monitorId), ("type", t)]
      | none => [("app", monitorId)] }

/-- `ProcessMonitor.print_metrics`: emit every running-total entry. -/
def printMetrics (monitorId : String) (total : Totals) : List Emit :=
  total.map (emitOf monitorId)

/-- The cross-cycle aggregator state of `ProcessMonitor`. -/
structure MonState where
  hist : Hist
  total : Totals
deriving DecidableEq

/-- One selected pid together with the sample its tracker collected. -/
abbrev CycleInput := List (Nat × Sample)

/-- The per-cycle body of `ProcessMonitor.gather_sample`: record all
samples, reset the non-app.cpu totals, recompute the running totals with
purge, and emit.  The selected pid list and the collected samples are the
external inputs of the cycle. -/
def runCycle (monitorId : String) (st : MonState) (input : CycleInput) :
    MonState × List Emit :=
  let hist1 := recordAll input st.hist
  let total1 := resetAbsoluteMetrics hist1 st.total
  let p := calcRunningTotal (input.map (·.1)) hist1 total1
  ({ hist := p.1, total := p.2 }, printMetrics monitorId p.2)

/-- Iterated cycles. -/
def runCycles (monitorId : String) (inputs : List CycleInput) (st : MonState) :
    MonState :=
  match inputs with
  | [] => st
  | i :: rest => runCycles monitorId rest (runCycle monitorId st i).1

/-- The monitor starts with empty history and empty running totals. -/
def initState : MonState := { hist := [], total := [] }

def cpuUser : MetricKey := ("app.cpu", some "user")

def uptimeKey : MetricKey := ("app.uptime", none)

/-! ### BaseReader (`run_single_cycle`) -/

/-- The cross-cycle state of a `BaseReader`: an open handle, the permanent
failure flag, and the timestamp written at the top of `run_single_cycle`. -/
structure ReaderState where
  fileOpen : Bool
  failed : Bool
  timestamp : Option Int
deriving DecidableEq

/-- Outcome of the `open(filename)` attempt, an input to the embedding:
either the file opens or an IOError with the given errno is raised. -/
inductive OpenOutcome where
  | opened
  | ioError (errno : Nat)
deriving DecidableEq

/-- Outcome of the `seek(0)` plus `gather_sample` step (the subclass hook):
either a sample that `gather_sample` merges into the collector, or an
IOError caught by `run_single_cycle`. -/
inductive GatherOutcome where
  | ok (sample : Sample)
  | ioError
deriving DecidableEq

/-- The calls made on the logger by `run_single_cycle`. -/
inductive LogEvent where
  | permError
  | unsupportedError
  | gatherError
deriving DecidableEq

/-- Python `if not collector: collector = {}`. -/
def pyCollector : Option Sample → Sample
  | none => []
  | some c => if c.isEmpty then [] else c

/-- Python `dict.update`. -/
def pyUpdate (d : Sample) (u : Sample) : Sample :=
  u.foldl (fun acc kv => alSet acc kv.1 kv.2) d

/-- `BaseReader.run_single_cycle`.  Returns the reader state after the
call, the logger calls made, and either the raised errno or the returned
value (`none` models Python returning None).

Control flow of the source: set the timestamp; early-return None when
permanently failed; default the collector; when no handle is open try to
open it, where errno 13 and errno 2 set the permanent-failure flag and log
(file stays closed) while any other errno sets the flag and re-raises;
finally, when a handle is open, gather (an IOError there is logged and
closes the handle), otherwise return the collector. -/
def runSingleCycle (st : ReaderState) (now : Int) (collector : Option Sample)
    (openOut : OpenOutcome) (gatherOut : GatherOutcome) :
    ReaderState × List LogEvent × Except Nat (Option Sample) :=
  let st1 : ReaderState := { st with timestamp := some now }
  if st1.failed then (st1, [], Except.ok none)
  else
    let c := pyCollector collector
    let afterOpen : ReaderState × List LogEvent × Option Nat :=
      if st1.fileOpen then (st1, [], none)
      else
        match openOut with
        | OpenOutcome.opened => ({ st1 with fileOpen := true }, [], none)
        | OpenOutcome.ioError errno =>
          let st2 : ReaderState := { st1 with failed := true }
          if errno = 13 then (st2, [LogEvent.permError], none)
          else if errno = 2 then (st2, [LogEvent.unsupportedError], none)
          else (st2, [], some errno)
    match afterOpen with
    | (st2, logs, some e) => (st2, logs, Except.error e)
    | (st2, logs, none) =>
      if st2.fileOpen then
        match gatherOut with
        | GatherOutcome.ok sample => (st2, logs, Except.ok (some (pyUpdate c sample)))
        | GatherOutcome.ioError =>
          ({ st2 with fileOpen := false }, logs ++ [LogEvent.gatherError],
            Except.ok (some c))
      else (st2, logs, Except.ok (some c))

/-! ### Process selection (`__select_processes`, `__is_running`) -/

/-- Errors that can propagate out of the commandline branch of
`__select_processes`: the Popen of ps failing, or int() failing on a
non-numeric pid token. -/
inductive SelError where
  | launchFailure
  | parseFailure
deriving DecidableEq

/-- Python `str.strip()`. -/
def pyStrip (s : List Char) : List Char :=
  ((s.dropWhile Char.isWhitespace).reverse.dropWhile Char.isWhitespace).reverse

/-- Python `str.lower()`. -/
def pyLower (s : List Char) : List Char := s.map Char.toLower

/-- Python `int(token)` on a ps pid token: defined on non-empty digit
strings, otherwise int() raises. -/
def pyNat? (s : List Char) : Option Nat :=
  if !s.isEmpty && s.all Char.isDigit then
    some (s.foldl (fun n c => n * 10 + (c.toNat - 48)) 0)
  else none

/-- `matching_pids.add(pid)`: set insertion. -/
def insertPid (acc : List Nat) (pid : Nat) : List Nat :=
  if pid ∈ acc then acc else acc ++ [pid]

/-- One iteration of the ps-output loop of `__select_processes`: strip the
line; skip it unless the first space sits after a non-empty prefix; skip
the PID header; parse the pid (a non-numeric token raises through int());
and add the pid when the remainder of the line matches the pattern.  The
regular-expression search is an external collaborator passed as the
`search` argument. -/
def selStep (search : String → List Char → Bool) (pat : String) (acc : List Nat)
    (line : List Char) : Except SelError (List Nat) :=
  match (pyStrip line).findIdx? (fun c => c == ' ') with
  | none => Except.ok acc
  | some i =>
    if i = 0 then Except.ok acc
    else if pyLower ((pyStrip line).take i) = ['p', 'i', 'd'] then Except.ok acc
    else
      match pyNat? ((pyStrip line).take i) with
      | none => Except.error SelError.parseFailure
      | some pid =>
        if search pat ((pyStrip line).drop (i + 1)) then Except.ok (insertPid acc pid)
        else Except.ok acc

/-- The ps-output loop. -/
def selLoop (search : String → List Char → Bool) (pat : String) (acc : List Nat) :
    List (List Char) → Except SelError (List Nat)
  | [] => Except.ok acc
  | line :: rest =>
    match selStep search pat acc line with
    | Except.ok acc2 => selLoop search pat acc2 rest
    | Except.error e => Except.error e

/-- The commandline branch of `__select_processes`: `listing` is the
outcome of invoking ps (`none` when Popen raises, in which case the source
has no handler and the error propagates). -/
def selectByCommandline (search : String → List Char → Bool) (pat : String)
    (listing : Option (List (List Char))) : Except SelError (List Nat) :=
  match listing with
  | none => Except.error SelError.launchFailure
  | some lines => selLoop search pat [] lines

/-- Python truthiness of the configured commandline matcher string. -/
def pyTruthy : Option String → Bool
  | none => false
  | some s => !s.isEmpty

/-- `ProcessMonitor.__select_processes`.  With a truthy commandline
matcher, run the ps branch.  Otherwise the source returns the configured
target pid set unfiltered: the comparison of that set of ints with the
string of two dollar signs is always false in Python 2, and no liveness
check is performed. -/
def selectProcesses (search : String → List Char → Bool) (matcher : Option String)
    (targetPids : List Nat) (listing : Option (List (List Char))) :
    Except SelError (List Nat) :=
  if pyTruthy matcher then selectByCommandline search (matcher.getD "") listing
  else Except.ok targetPids

/-- `ProcessTracker.__is_running`: `os.kill(pid, 0)` outcome as input
(`none` means the call succeeded, `some errno` an OSError).  Errno 3 means
no such process; any other error means the process exists. -/
def isRunning (killResult : Option Nat) : Bool :=
  match killResult with
  | none => true
  | some errno => decide (errno ≠ 3)

/-! ### Association-list lemmas -/

theorem alGet_alSet_self {α β : Type} [DecidableEq α] (l : List (α × β)) (k : α) (v : β) :
    alGet (alSet l k v) k = some v := by
  induction l with
  | nil => simp [alSet, alGet]
  | cons e rest ih =>
    by_cases h : e.1 = k
    · simp [alSet, alGet, h]
    · simp [alSet, alGet, h, ih]

theorem alGet_alSet_ne {α β : Type} [DecidableEq α] (l : List (α × β)) (k k' : α) (v : β)
    (h : k' ≠ k) : alGet (alSet l k v) k' = alGet l k' := by
  have hk : ¬(k = k') := fun h' => h h'.symm
  induction l with
  | nil => simp [alSet, alGet, hk]
  | cons e rest ih =>
    by_cases he : e.1 = k
    · subst he
      simp [alSet, alGet, hk]
    · by_cases he' : e.1 = k'
      · simp [alSet, alGet, he, he', h]
      · simp [alSet, alGet, he, he', ih]

theorem alGet_alSet_isSome {α β : Type} [DecidableEq α] (l : List (α × β)) (k k' : α) (v : β)
    (h : (alGet l k').isSome = true) : (alGet (alSet l k v) k').isSome = true := by
  by_cases hk : k' = k
  · subst hk; simp [alGet_alSet_self]
  · rw [alGet_alSet_ne l k k' v hk]; exact h

theorem alGet_mem {α β : Type} [DecidableEq α] (l : List (α × β)) (k : α) (v : β)
    (h : alGet l k = some v) : (k, v) ∈ l := by
  induction l with
  | nil => simp [alGet] at h
  | cons e rest ih =>
    by_cases he : e.1 = k
    · simp only [alGet, he, if_pos] at h
      obtain ⟨k1, v1⟩ := e
      cases h
      simp_all
    · simp only [alGet, he, if_neg, not_false_iff] at h
      exact List.mem_cons_of_mem _ (ih h)

theorem alSet_mem {α β : Type} [DecidableEq α] (l : List (α × β)) (k : α) (v : β) (e : α × β)
    (h : e ∈ alSet l k v) : e ∈ l ∨ e = (k, v) := by
  induction l with
  | nil => simp [alSet] at h; simp [h]
  | cons e1 rest ih =>
    by_cases he : e1.1 = k
    · simp only [alSet, he, if_pos] at h
      rcases List.mem_cons.mp h with h1 | h1
      · exact Or.inr h1
      · exact Or.inl (List.mem_cons_of_mem _ h1)
    · simp only [alSet, he, if_neg, not_false_iff] at h
      rcases List.mem_cons.mp h with h1 | h1
      · exact Or.inl (h1 ▸ List.mem_cons_self _ _)
      · rcases ih h1 with h2 | h2
        · exact Or.inl (List.mem_cons_of_mem _ h2)
        · exact Or.inr h2

theorem alSet_all {α β : Type} [DecidableEq α] (l : List (α × β)) (k : α) (v : β)
    (p : α × β → Bool) (hl : l.all p = true) (hv : p (k, v) = true) :
    (alSet l k v).all p = true := by
  rw [List.all_eq_true] at hl ⊢
  intro e he
  rcases alSet_mem l k v e he with h | h
  · exact hl e h
  · rw [h]; exact hv

/-! ### ensureKey lemmas -/

theorem alGet_ensureKey_getD (t : Totals) (key : MetricKey) :
    (alGet (ensureKey t key) key).getD 0 = (alGet t key).getD 0 := by
  unfold ensureKey
  split
  · rename_i h; rw [alGet_alSet_self]; simpa using h.symm
  · rfl

theorem alGet_ensureKey_ne (t : Totals) (key k' : MetricKey) (h : k' ≠ key) :
    alGet (ensureKey t key) k' = alGet t k' := by
  unfold ensureKey
  split
  · exact alGet_alSet_ne t key k' 0 h
  · rfl

theorem alGet_ensureKey_isSome (t : Totals) (key k' : MetricKey)
    (h : (alGet t k').isSome = true) : (alGet (ensureKey t key) k').isSome = true := by
  unfold ensureKey
  split
  · exact alGet_alSet_isSome t key k' 0 h
  · exact h

/-! ### Characterisation of the reset pass -/

/-- The metric key occurs in the history slice of one pid. -/
def keyInPm (pm : PidMetrics) (key : MetricKey) : Bool :=
  pm.any (fun kv => decide (kv.1 = key))

/-- The metric key occurs somewhere in the history. -/
def keyInHist (hist : Hist) (key : MetricKey) : Bool :=
  hist.any (fun e => keyInPm e.2 key)

theorem alGet_resetPm (pm : PidMetrics) (t : Totals) (key : MetricKey) :
    alGet (resetPm pm t) key =
      if keyInPm pm key = true ∧ key.1 ≠ "app.cpu" then some 0 else alGet t key := by
  induction pm generalizing t with
  | nil => simp [resetPm, keyInPm]
  | cons kv rest ih =>
    rw [resetPm, ih]
    by_cases hkey : key.1 = "app.cpu"
    · simp only [hkey, ne_eq, not_true_eq_false, and_false, if_false]
      by_cases hcpu : kv.1.1 = "app.cpu"
      · simp [hcpu]
      · have hne : key ≠ kv.1 := fun h => hcpu (by rw [← h]; exact hkey)
        rw [if_neg hcpu, alGet_alSet_ne t kv.1 key 0 hne]
    · by_cases hk : kv.1 = key
      · have hcpu : ¬kv.1.1 = "app.cpu" := by rw [hk]; exact hkey
        simp [keyInPm, hk, hkey, hcpu, alGet_alSet_self, ite_self]
      · have hne : key ≠ kv.1 := fun h => hk h.symm
        have hd : decide (kv.1 = key) = false := decide_eq_false hk
        have hcond : keyInPm (kv :: rest) key = keyInPm rest key := by simp [keyInPm, hd]
        rw [hcond]
        by_cases hcpu : kv.1.1 = "app.cpu"
        · rw [if_pos hcpu]
        · rw [if_neg hcpu, alGet_alSet_ne t kv.1 key 0 hne]

theorem alGet_resetAll (hist : Hist) (total : Totals) (key : MetricKey) :
    alGet (resetAbsoluteMetrics hist total) key =
      if keyInHist hist key = true ∧ key.1 ≠ "app.cpu" then some 0 else alGet total key := by
  induction hist generalizing total with
  | nil => simp [resetAbsoluteMetrics, keyInHist]
  | cons e rest ih =>
    rw [resetAbsoluteMetrics, ih, alGet_resetPm]
    by_cases hkey : key.1 = "app.cpu"
    · simp [hkey]
    · by_cases hin : keyInPm e.2 key = true
      · simp [keyInHist, hin, hkey, ite_self]
      · have hf : keyInPm e.2 key = false := by
          cases h : keyInPm e.2 key
          · rfl
          · exact absurd h hin
        have hcond : keyInHist (e :: rest) key = keyInHist rest key := by
          simp [keyInHist, hf]
        rw [hcond]
        simp [hf]

/-! ### Purge lemma -/

theorem alGet_filter_purge (hist : Hist) (running : List Nat) (p : Nat)
    (hp : p ∉ running) :
    alGet (hist.filter (fun e => decide (e.1 ∈ running))) p = none := by
  induction hist with
  | nil => rfl
  | cons e rest ih =>
    by_cases he : e.1 ∈ running
    · rw [List.filter_cons_of_pos (by simpa using he)]
      have hne : ¬e.1 = p := fun h => hp (h ▸ he)
      simp [alGet, hne, ih]
    · rw [List.filter_cons_of_neg (by simpa using he)]
      exact ih

/-! ### Claims C1, C2, C3, C7 -/

/-- The C1 scenario: three cycles of a single continuously selected pid
whose (app.cpu, user) metric records the raw values 100, 150 and 220. -/
def c1Final : MonState :=
  runCycles "m"
    [[(1, [(cpuUser, 100)])], [(1, [(cpuUser, 150)])], [(1, [(cpuUser, 220)])]]
    initState

/-- Claim C1 counterexample.  The claim says the RunningTotal for
(app.cpu, user) after the third cycle equals 70 (the last delta only).  On
the code it equals 120: the recompute pass adds each cycle delta into the
persistent running total (plus-equals in `_calculate_running_total`), so
the deltas 50 and 70 accumulate. -/
theorem c1_counterexample :
    alGet c1Final.total cpuUser = some 120
    ∧ ¬alGet c1Final.total cpuUser = some 70 := by
  constructor
  · decide
  · decide

/-- Claim C1 amended: in the same scenario the RunningTotal after the third
cycle recompute equals 120, the sum of the two cycle deltas
(150 - 100) + (220 - 150), not the last delta alone. -/
theorem c1_amended :
    alGet c1Final.total cpuUser = some ((150 - 100) + (220 - 150)) := by
  decide

/-- Claim C2 counterexample.  app.uptime is declared cumulative by
`define_metric`, so the claim says the reset step leaves its RunningTotal
entry unchanged.  On the code `_reset_absolute_metrics` zeroes every
history metric whose name is not app.cpu: with app.uptime in history and a
RunningTotal of 37, the reset step rewrites it to 0. -/
theorem c2_counterexample :
    alGet (resetAbsoluteMetrics [(1, [(uptimeKey, [500])])] [(uptimeKey, 37)]) uptimeKey
        = some 0
    ∧ ¬(some (0 : Int) = some (37 : Int)) := by
  constructor
  · decide
  · decide

/-- Claim C2 amended: the per-cycle reset step sets to zero the
RunningTotal entry of every MetricKey present in History whose metric name
is not app.cpu, and leaves every other RunningTotal entry unchanged.  In
particular only app.cpu among the declared-cumulative metrics is spared:
app.uptime, app.disk.bytes and app.disk.requests are zeroed exactly like
the absolute metrics. -/
theorem c2_amended (hist : Hist) (total : Totals) (key : MetricKey) :
    alGet (resetAbsoluteMetrics hist total) key =
      if keyInHist hist key = true ∧ key.1 ≠ "app.cpu" then some 0
      else alGet total key :=
  alGet_resetAll hist total key

/-- Claim C3 counterexample.  The claim says a selected pid with fewer than
two recorded samples of a cumulative metric contributes 0, leaving
RunningTotal[key] unchanged, including contributions already added for
other pids in the same cycle.  On the code that branch assigns zero: with
pid 1 contributing delta 50 and newly observed pid 2 processed after it,
the recompute pass ends with RunningTotal[(app.cpu, user)] = 0, wiping the
50 rather than leaving it in place. -/
theorem c3_counterexample :
    alGet (calcAll [1, 2] [(1, [(cpuUser, [100, 150])]), (2, [(cpuUser, [200])])] []) cpuUser
        = some 0
    ∧ ¬(some (0 : Int) = some (50 : Int)) := by
  constructor
  · decide
  · decide

/-- Claim C3 amended: during the recompute pass, processing a cumulative
(app.cpu) entry of a selected pid whose History holds fewer than two
samples assigns RunningTotal[key] := 0, discarding whatever value the key
held (contributions of other pids this cycle included); entries of other
keys are left unchanged. -/
theorem c3_amended (running : List Nat) (pid : Nat) (key : MetricKey) (vals : List Int)
    (t : Totals) (h1 : pid ∈ running) (h2 : key.1 = "app.cpu") (h3 : vals.length < 2) :
    alGet (calcEntry running pid key vals t) key = some 0
    ∧ ∀ k', k' ≠ key → alGet (calcEntry running pid key vals t) k' = alGet t k' := by
  unfold calcEntry
  rw [if_pos h2, if_pos h1, if_pos h3]
  exact ⟨alGet_alSet_self _ _ _,
    fun k' hk' => by rw [alGet_alSet_ne _ key k' 0 hk', alGet_ensureKey_ne t key k' hk']⟩

/-- Witness for the amended claim C3 at a concrete input. -/
theorem c3_amended_witness :
    alGet (calcEntry [2] 2 cpuUser [200] [(cpuUser, 50)]) cpuUser = some 0 :=
  (c3_amended [2] 2 cpuUser [200] [(cpuUser, 50)] (by decide) rfl (by decide)).1

/-- Claim C7: back-out semantics.  Processing an app.cpu history entry of a
pid that is not in the selected set and has at least two recorded values
decrements RunningTotal[key] by the last delta (latest minus previous),
relative to the value it otherwise held (a missing or zero entry counting
as zero, per the normalisation step), leaving all other keys unchanged;
and after the recompute pass `_calculate_running_total` removes the
history entries of every pid not in the selected set. -/
theorem c7_backout (running : List Nat) (pid : Nat) (key : MetricKey) (vals : List Int)
    (t : Totals) (hist : Hist)
    (h1 : pid ∉ running) (h2 : key.1 = "app.cpu") (h3 : 2 ≤ vals.length) :
    alGet (calcEntry running pid key vals t) key
        = some ((alGet t key).getD 0 - (pyLastD vals - pySecondLastD vals))
    ∧ (∀ k', k' ≠ key → alGet (calcEntry running pid key vals t) k' = alGet t k')
    ∧ (∀ p, p ∉ running → alGet (calcRunningTotal running hist t).1 p = none) := by
  unfold calcEntry
  rw [if_pos h2, if_neg h1, if_pos h3]
  refine ⟨?_, ?_, ?_⟩
  · rw [alGet_alSet_self, alGet_ensureKey_getD]
  · intro k' hk'
    rw [alGet_alSet_ne _ key k' _ hk', alGet_ensureKey_ne t key k' hk']
  · intro p hp
    exact alGet_filter_purge hist running p hp

/-- Witness for claim C7 at a concrete input: a dead pid with history
values 100 and 150 drives the total from its default 0 down to -50. -/
theorem c7_backout_witness :
    alGet (calcEntry [] 1 cpuUser [100, 150] []) cpuUser
        = some ((alGet ([] : Totals) cpuUser).getD 0
            - (pyLastD [100, 150] - pySecondLastD [100, 150])) :=
  (c7_backout [] 1 cpuUser [100, 150] [] [] (by decide) rfl (by decide)).1

/-! ### Claim C9: the two-entry history bound -/

/-- Every value list of one pid holds at most 2 entries. -/
def pmWF (pm : PidMetrics) : Bool :=
  pm.all (fun kv => decide (kv.2.length ≤ 2))

/-- Every value list in the whole history holds at most 2 entries. -/
def histWF (hist : Hist) : Bool :=
  hist.all (fun e => pmWF e.2)

theorem lastTwo_length (l : List Int) : (lastTwo l).length ≤ 2 := by
  unfold lastTwo
  rw [List.length_drop]
  omega

theorem pmWF_alSet (pm : PidMetrics) (key : MetricKey) (v : List Int)
    (hpm : pmWF pm = true) (hv : v.length ≤ 2) :
    pmWF (alSet pm key v) = true :=
  alSet_all pm key v _ hpm (by simpa using hv)

theorem pmWF_of_histWF (hist : Hist) (pid : Nat) (h : histWF hist = true) :
    pmWF ((alGet hist pid).getD []) = true := by
  cases hg : alGet hist pid with
  | none => rfl
  | some pm =>
    have hm := alGet_mem hist pid pm hg
    unfold histWF at h
    rw [List.all_eq_true] at h
    simpa using h (pid, pm) hm

theorem histWF_recordOne (hist : Hist) (pid : Nat) (key : MetricKey) (v : Int)
    (h : histWF hist = true) : histWF (recordOne hist pid key v) = true :=
  alSet_all hist pid _ _ h
    (pmWF_alSet _ key _ (pmWF_of_histWF hist pid h) (lastTwo_length _))

theorem histWF_recordMetrics (metrics : Sample) (hist : Hist) (pid : Nat)
    (h : histWF hist = true) : histWF (recordMetrics hist pid metrics) = true := by
  induction metrics generalizing hist with
  | nil => exact h
  | cons kv rest ih => exact ih _ (histWF_recordOne hist pid kv.1 kv.2 h)

theorem histWF_recordAll (input : CycleInput) (hist : Hist)
    (h : histWF hist = true) : histWF (recordAll input hist) = true := by
  induction input generalizing hist with
  | nil => exact h
  | cons e rest ih => exact ih _ (histWF_recordMetrics e.2 hist e.1 h)

theorem histWF_filter (hist : Hist) (q : Nat × PidMetrics → Bool)
    (h : histWF hist = true) : histWF (hist.filter q) = true := by
  unfold histWF at h ⊢
  rw [List.all_eq_true] at h ⊢
  intro e he
  exact h e (List.mem_filter.mp he).1

theorem histWF_runCycle (monitorId : String) (st : MonState) (input : CycleInput)
    (h : histWF st.hist = true) :
    histWF (runCycle monitorId st input).1.hist = true :=
  histWF_filter _ _ (histWF_recordAll input st.hist h)

/-- Claim C9: for every (pid, MetricKey) pair and after any number of
record, recompute and purge cycles with arbitrary samples, the history
sequence stored for that pair holds at most 2 entries. -/
theorem c9_history_bound (monitorId : String) (inputs : List CycleInput) :
    histWF (runCycles monitorId inputs initState).hist = true := by
  have main : ∀ (l : List CycleInput) (st : MonState), histWF st.hist = true →
      histWF (runCycles monitorId l st).hist = true := by
    intro l
    induction l with
    | nil => intro st h; exact h
    | cons i rest ih => intro st h; exact ih _ (histWF_runCycle monitorId st i h)
  exact main inputs initState rfl

/-! ### Claim C10: running-total entries persist -/

theorem alGet_isSome_calcEntry (running : List Nat) (pid : Nat) (key : MetricKey)
    (vals : List Int) (t : Totals) (k : MetricKey)
    (h : (alGet t k).isSome = true) :
    (alGet (calcEntry running pid key vals t) k).isSome = true := by
  have hens := alGet_ensureKey_isSome t key k h
  unfold calcEntry
  split
  · split
    · split
      · exact alGet_alSet_isSome _ key k _ hens
      · exact alGet_alSet_isSome _ key k _ hens
    · split
      · exact alGet_alSet_isSome _ key k _ hens
      · exact hens
  · exact alGet_alSet_isSome _ key k _ hens

theorem alGet_isSome_calcPm (running : List Nat) (pid : Nat) (pm : PidMetrics)
    (t : Totals) (k : MetricKey) (h : (alGet t k).isSome = true) :
    (alGet (calcPm running pid pm t) k).isSome = true := by
  induction pm generalizing t with
  | nil => exact h
  | cons kv rest ih => exact ih _ (alGet_isSome_calcEntry running pid kv.1 kv.2 t k h)

theorem alGet_isSome_calcAll (running : List Nat) (hist : Hist)
    (t : Totals) (k : MetricKey) (h : (alGet t k).isSome = true) :
    (alGet (calcAll running hist t) k).isSome = true := by
  induction hist generalizing t with
  | nil => exact h
  | cons e rest ih => exact ih _ (alGet_isSome_calcPm running e.1 e.2 t k h)

theorem alGet_isSome_reset (hist : Hist) (t : Totals) (k : MetricKey)
    (h : (alGet t k).isSome = true) :
    (alGet (resetAbsoluteMetrics hist t) k).isSome = true := by
  rw [alGet_resetAll]
  split
  · rfl
  · exact h

/-- Claim C10: once a MetricKey has an entry in RunningTotal it is never
removed.  First conjunct: a running-total entry present before a cycle is
still present after the cycle, whatever the selected pids and samples are
(the reset and recompute passes only ever assign entries).  Second
conjunct: emission iterates over every entry of the running totals.  Third
conjunct: once the history is empty, cycles with no selected pids leave
the whole state, in particular every previously computed running-total
value, exactly unchanged, for any number of later cycles. -/
theorem c10_total_persistence (monitorId : String) :
    (∀ (st : MonState) (input : CycleInput) (key : MetricKey),
        (alGet st.total key).isSome = true →
        (alGet (runCycle monitorId st input).1.total key).isSome = true)
    ∧ (∀ (total : Totals) (kv : MetricKey × Int), kv ∈ total →
        emitOf monitorId kv ∈ printMetrics monitorId total)
    ∧ (∀ (total : Totals) (n : Nat),
        runCycles monitorId (List.replicate n []) { hist := [], total := total }
          = { hist := [], total := total }) := by
  refine ⟨?_, ?_, ?_⟩
  · intro st input key h
    exact alGet_isSome_calcAll _ _ _ key (alGet_isSome_reset _ _ key h)
  · intro total kv hkv
    exact List.mem_map_of_mem _ hkv
  · intro total n
    induction n with
    | zero => rfl
    | succ m ih =>
      have hstep : (runCycle monitorId { hist := [], total := total } []).1
          = { hist := [], total := total } := rfl
      calc runCycles monitorId (List.replicate (m + 1) [])
              { hist := ([] : Hist), total := total }
          = runCycles monitorId (List.replicate m [])
              (runCycle monitorId { hist := [], total := total } []).1 := by
            rw [List.replicate_succ, runCycles]
        _ = { hist := ([] : Hist), total := total } := by rw [hstep]; exact ih

/-- Witness for claim C10 at a concrete input. -/
theorem c10_total_persistence_witness :
    (alGet (runCycle "m" { hist := [], total := [(cpuUser, 5)] } []).1.total cpuUser).isSome
      = true :=
  (c10_total_persistence "m").1 { hist := [], total := [(cpuUser, 5)] } [] cpuUser (by decide)

/-! ### Claims C6 and C8: BaseReader.run_single_cycle -/

/-- A permanently failed reader with no open handle. -/
def failedReader : ReaderState := { fileOpen := false, failed := true, timestamp := none }

/-- The collector passed in the C6 counterexample. -/
def c6Collector : Sample := [(cpuUser, 5)]

/-- Claim C6 counterexample.  The claim says a permanently failed reader
returns the collector unchanged.  The source executes a bare return, which
returns None, not the collector: with a non-empty collector argument the
call returns None rather than that collector. -/
theorem c6_counterexample :
    (runSingleCycle failedReader 0 (some c6Collector) OpenOutcome.opened
        (GatherOutcome.ok [])).2.2 = Except.ok none
    ∧ ¬((Except.ok none : Except Nat (Option Sample)) = Except.ok (some c6Collector)) := by
  constructor
  · rfl
  · intro h
    simp at h

/-- Claim C6 amended: if the permanent-failure flag is set at the start of
run_single_cycle, the call is a terminal no-op up to the timestamp write:
it returns None (not the collector), adds no metrics, reports nothing,
opens no file, and leaves the flag and handle state untouched. -/
theorem c6_amended (st : ReaderState) (now : Int) (c : Option Sample)
    (oo : OpenOutcome) (go : GatherOutcome) (h : st.failed = true) :
    runSingleCycle st now c oo go
      = ({ st with timestamp := some now }, [], Except.ok none) := by
  unfold runSingleCycle
  simp [h]

/-- Witness for the amended claim C6 at a concrete input. -/
theorem c6_amended_witness :
    runSingleCycle failedReader 3 (some c6Collector) OpenOutcome.opened (GatherOutcome.ok [])
      = ({ failedReader with timestamp := some 3 }, [], Except.ok none) :=
  c6_amended failedReader 3 (some c6Collector) OpenOutcome.opened (GatherOutcome.ok []) rfl

/-- Claim C8: when a reader with no open handle and a clear failure flag
attempts to open its file, a permission-denied error (errno 13) and a
not-found error (errno 2) each set the permanent-failure flag, produce the
corresponding logger report, and return normally; an open error with any
other errno sets the flag and propagates out of run_single_cycle. -/
theorem c8_open_errors (st : ReaderState) (now : Int) (c : Option Sample)
    (g : GatherOutcome) (h1 : st.failed = false) (h2 : st.fileOpen = false) :
    runSingleCycle st now c (OpenOutcome.ioError 13) g
      = ({ st with timestamp := some now, failed := true }, [LogEvent.permError],
          Except.ok (some (pyCollector c)))
    ∧ runSingleCycle st now c (OpenOutcome.ioError 2) g
      = ({ st with timestamp := some now, failed := true }, [LogEvent.unsupportedError],
          Except.ok (some (pyCollector c)))
    ∧ ∀ errno : Nat, ¬errno = 13 → ¬errno = 2 →
        runSingleCycle st now c (OpenOutcome.ioError errno) g
          = ({ st with timestamp := some now, failed := true }, [], Except.error errno) := by
  obtain ⟨fo, fl, ts⟩ := st
  dsimp only at h1 h2
  subst h1
  subst h2
  refine ⟨rfl, rfl, ?_⟩
  · intro errno hn13 hn2
    unfold runSingleCycle
    simp [hn13, hn2]

/-- Witness for claim C8 at a concrete input (the errno 13 conjunct). -/
theorem c8_open_errors_witness :
    runSingleCycle { fileOpen := false, failed := false, timestamp := none } 7 none
        (OpenOutcome.ioError 13) (GatherOutcome.ok [])
      = ({ fileOpen := false, failed := true, timestamp := some 7 }, [LogEvent.permError],
          Except.ok (some [])) :=
  (c8_open_errors { fileOpen := false, failed := false, timestamp := none } 7 none
    (GatherOutcome.ok []) rfl rfl).1

/-! ### Claims C4 and C5: process selection -/

/-- Claim C4 (code bug).  With an explicit pid configuration and no
commandline matcher, `__select_processes` returns the configured pid set
unfiltered: no liveness check is applied, even though the probe
`__is_running` exists (and classifies errno 3 as not alive and every other
outcome as alive) and the inline comment of the pid branch says the code
checks whether the target pid is running.  With pid 4242 configured and no
process 4242 alive, the claim requires the empty set but the code returns
the set containing 4242. -/
theorem c4_divergence :
    selectProcesses (fun _ _ => false) none [4242] none = Except.ok [4242]
    ∧ isRunning (some 3) = false
    ∧ isRunning (some 13) = true
    ∧ isRunning none = true :=
  ⟨rfl, rfl, rfl, rfl⟩

/-- Claim C5 counterexample.  The claim says selection never fails and
yields the empty set when the listing tool cannot be invoked.  In the
source the Popen call sits in a try block with no except handler, so a
launch failure propagates out of selection instead of producing a set. -/
theorem c5_counterexample :
    selectProcesses (fun _ _ => false) (some "java") [] none
        = Except.error SelError.launchFailure
    ∧ ¬((Except.error SelError.launchFailure : Except SelError (List Nat))
        = Except.ok []) := by
  refine ⟨rfl, fun h => ?_⟩
  cases h

/-- A ps output line that contributes no pid: blank or without a space
after a non-empty first token, the PID header line, or a line with a
numeric pid whose command part does not match the pattern. -/
def nonMatchingLine (search : String → List Char → Bool) (pat : String)
    (line : List Char) : Bool :=
  match (pyStrip line).findIdx? (fun c => c == ' ') with
  | none => true
  | some i =>
    if i = 0 then true
    else if pyLower ((pyStrip line).take i) = ['p', 'i', 'd'] then true
    else (pyNat? ((pyStrip line).take i)).isSome && !search pat ((pyStrip line).drop (i + 1))

theorem selStep_nonMatching (search : String → List Char → Bool) (pat : String)
    (line : List Char) (acc : List Nat)
    (h : nonMatchingLine search pat line = true) :
    selStep search pat acc line = Except.ok acc := by
  unfold nonMatchingLine at h
  unfold selStep
  cases hF : (pyStrip line).findIdx? (fun c => c == ' ') with
  | none => rfl
  | some i =>
    rw [hF] at h
    dsimp only at h ⊢
    by_cases h0 : i = 0
    · rw [if_pos h0]
    · rw [if_neg h0] at h ⊢
      by_cases hhdr : pyLower ((pyStrip line).take i) = ['p', 'i', 'd']
      · rw [if_pos hhdr]
      · rw [if_neg hhdr] at h ⊢
        cases hN : pyNat? ((pyStrip line).take i) with
        | none => rw [hN] at h; simp at h
        | some pid =>
          rw [hN] at h
          dsimp only at h ⊢
          have hs : search pat ((pyStrip line).drop (i + 1)) = false := by
            simp at h
            exact h
          simp [hs]

theorem selLoop_nonMatching (search : String → List Char → Bool) (pat : String)
    (lines : List (List Char)) (acc : List Nat)
    (h : ∀ line ∈ lines, nonMatchingLine search pat line = true) :
    selLoop search pat acc lines = Except.ok acc := by
  induction lines generalizing acc with
  | nil => rfl
  | cons line rest ih =>
    have hs := selStep_nonMatching search pat line acc (h line (List.mem_cons_self _ _))
    show (match selStep search pat acc line with
      | Except.ok acc2 => selLoop search pat acc2 rest
      | Except.error e => Except.error e) = Except.ok acc
    rw [hs]
    exact ih acc (fun l hl => h l (List.mem_cons_of_mem _ hl))

/-- Claim C5 amended: with a configured commandline pattern, selection
returns the empty set when the listing tool output is available and no
line contributes a matching pid; but when the listing tool cannot be
invoked, the launch error propagates out of selection (the try block of
the source has no except clause) instead of yielding an empty set. -/
theorem c5_amended (search : String → List Char → Bool) (pat : String)
    (pids : List Nat) (lines : List (List Char))
    (hpat : pat.isEmpty = false)
    (h : ∀ line ∈ lines, nonMatchingLine search pat line = true) :
    selectProcesses search (some pat) pids (some lines) = Except.ok []
    ∧ selectProcesses search (some pat) pids none = Except.error SelError.launchFailure := by
  have ht : pyTruthy (some pat) = true := by simp [pyTruthy, hpat]
  constructor
  · unfold selectProcesses
    rw [if_pos ht]
    exact selLoop_nonMatching search pat lines [] h
  · unfold selectProcesses
    rw [if_pos ht]
    rfl

/-- Witness for the amended claim C5 at a concrete input: one ps line with
pid 1 and a command that the (concrete) search function rejects. -/
theorem c5_amended_witness :
    selectProcesses (fun _ _ => false) (some "java") [] (some [['1', ' ', 'b']])
        = Except.ok [] :=
  (c5_amended (fun _ _ => false) "java" [] [['1', ' ', 'b']] rfl (by decide)).1
